import Mathlib

set_option linter.unusedVariables false

/- Shallow embedding of the assertion engine of alsatian (src/core/expect.ts).

   JavaScript values are modelled by the inductive type JsVal.  Objects,
   arrays, functions, function spies and property spies live in an explicit
   heap (a finite association list from references to object data), so that
   reference identity, aliasing and cyclic structures are represented
   faithfully.  JavaScript numbers are modelled as integers plus a NaN
   sentinel; the claims under verification never exercise fractional
   values, and the characteristic comparison behaviour of NaN is kept
   exact.  Throwing is modelled by the Outcome type returned by every
   matcher method: pass, a structured match failure mirroring the
   _errors.ts hierarchy, a TypeError, or divergence.

   Model simplifications, each marked at its definition: string-to-number
   coercion parses optionally signed decimal integers only, and the
   ToPrimitive string of a nested array element or of a function is a
   fixed tag.  No claim depends on these corners. -/

abbrev Ref := Nat

inductive JsNum where
  | int (i : Int)
  | nan
deriving DecidableEq, Repr

inductive JsVal where
  | undef
  | null
  | bool (b : Bool)
  | num (n : JsNum)
  | str (s : String)
  | ref (r : Ref)
deriving DecidableEq, Repr

/- A thrown error value: the list of class names on its prototype chain
   (for instanceof tests) and its message. -/
structure JsErr where
  types : List String
  message : String
deriving DecidableEq, Repr

/- Heap-resident data.  funcObj carries what a call to the function does:
   none means it returns normally, some e means it throws e.  spyObj
   carries the recorded calls (argument lists) of a function spy; propSpyObj
   the recorded set calls of a property spy. -/
inductive ObjData where
  | plain (fields : List (String × JsVal))
  | arrObj (elems : List JsVal)
  | funcObj (thrown : Option JsErr)
  | spyObj (calls : List (List JsVal))
  | propSpyObj (setCalls : List (List JsVal))
deriving DecidableEq, Repr

abbrev Heap := List (Ref × ObjData)

def heapGet (h : Heap) (r : Ref) : Option ObjData :=
  (h.find? (fun p => p.1 == r)).map (fun p => p.2)

/- Strict equality (the JavaScript triple-equals operator).  On references
   it is reference identity; NaN is not strictly equal to anything,
   including itself. -/
def numStrictEq : JsNum → JsNum → Bool
  | .int a, .int b => a == b
  | _, _ => false

def strictEq : JsVal → JsVal → Bool
  | .undef, .undef => true
  | .null, .null => true
  | .bool a, .bool b => a == b
  | .num a, .num b => numStrictEq a b
  | .str a, .str b => a == b
  | .ref a, .ref b => a == b
  | _, _ => false

/- The JavaScript typeof operator.  typeof null is "object"; functions and
   function spies report "function"; property spies are plain objects. -/
def typeofVal (h : Heap) : JsVal → String
  | .undef => "undefined"
  | .null => "object"
  | .bool _ => "boolean"
  | .num _ => "number"
  | .str _ => "string"
  | .ref r =>
    match heapGet h r with
    | some (.funcObj _) => "function"
    | some (.spyObj _) => "function"
    | _ => "object"

def isArrayVal (h : Heap) : JsVal → Bool
  | .ref r =>
    match heapGet h r with
    | some (.arrObj _) => true
    | _ => false
  | _ => false

/- Object.keys: throws a TypeError on null and undefined (modelled by
   Except.error); yields the own enumerable keys for objects and arrays,
   the index keys for strings, and the empty list for other primitives
   and for functions. -/
def jsKeys (h : Heap) : JsVal → Except Unit (List String)
  | .undef => .error ()
  | .null => .error ()
  | .str s => .ok ((List.range s.length).map (fun i => toString i))
  | .ref r =>
    match heapGet h r with
    | some (.plain fields) => .ok (fields.map (fun p => p.1))
    | some (.arrObj elems) => .ok ((List.range elems.length).map (fun i => toString i))
    | _ => .ok []
  | _ => .ok []

/- Property read v[k].  Absent properties read as undefined.  Only called
   by the deep-equality walk after Object.keys succeeded on both sides,
   so the null/undefined TypeError of a real property read is never
   reachable here. -/
def getProp (h : Heap) (v : JsVal) (k : String) : JsVal :=
  match v with
  | .ref r =>
    match heapGet h r with
    | some (.plain fields) =>
      match fields.find? (fun p => p.1 == k) with
      | some p => p.2
      | none => .undef
    | some (.arrObj elems) =>
      if k == "length" then .num (.int (elems.length : Int))
      else
        match k.toNat? with
        | some i =>
          if toString i == k then
            match elems.get? i with
            | some x => x
            | none => .undef
          else .undef
        | none => .undef
    | _ => .undef
  | .str s =>
    if k == "length" then .num (.int (s.length : Int))
    else
      match k.toNat? with
      | some i =>
        if toString i == k then
          match s.data.get? i with
          | some c => .str (String.singleton c)
          | none => .undef
        else .undef
      | none => .undef
  | _ => .undef

def numToStr : JsNum → String
  | .int i => toString i
  | .nan => "NaN"

/- ToNumber on strings, simplified to optionally signed decimal integers
   (the empty string is 0, anything else is NaN).  Fractional, hex and
   exponent forms are outside the fragment the claims exercise. -/
def strToNum (s : String) : JsNum :=
  let t := s.trim
  if t == "" then .int 0
  else
    match t.toInt? with
    | some i => .int i
    | none => .nan

/- Element conversion used by Array.prototype.join: null and undefined
   become empty, nested objects are simplified to their default tags
   (model simplification; no claim depends on nested stringification). -/
def joinElemStr (h : Heap) (v : JsVal) : String :=
  match v with
  | .undef => ""
  | .null => ""
  | .bool b => cond b ("true") ("false")
  | .num n => numToStr n
  | .str s => s
  | .ref r =>
    match heapGet h r with
    | some (.funcObj _) => "function"
    | some (.spyObj _) => "function"
    | _ => "[object Object]"

/- The default ToPrimitive/ToString of a value, used by loose equality
   when an object meets a primitive.  The source text of a function is
   simplified to a fixed tag. -/
def jsToStr (h : Heap) (v : JsVal) : String :=
  match v with
  | .undef => "undefined"
  | .null => "null"
  | .bool b => cond b ("true") ("false")
  | .num n => numToStr n
  | .str s => s
  | .ref r =>
    match heapGet h r with
    | some (.arrObj elems) => String.intercalate (",") (elems.map (joinElemStr h))
    | some (.funcObj _) => "function"
    | some (.spyObj _) => "function"
    | _ => "[object Object]"

def toNumVal (h : Heap) (v : JsVal) : JsNum :=
  match v with
  | .undef => .nan
  | .null => .int 0
  | .bool b => .int (cond b 1 0)
  | .num n => n
  | .str s => strToNum s
  | .ref r => strToNum (jsToStr h (.ref r))

/- Loose equality of a number against a non-boolean value, one rung of
   the double-equals ladder. -/
def numLooseEq (h : Heap) (n : JsNum) : JsVal → Bool
  | .undef => false
  | .null => false
  | .bool b => numStrictEq n (.int (cond b 1 0))
  | .num m => numStrictEq n m
  | .str s => numStrictEq n (strToNum s)
  | .ref r => numStrictEq n (strToNum (jsToStr h (.ref r)))

/- The JavaScript double-equals operator: same-type comparisons are
   strict, null and undefined are loosely equal to each other only,
   booleans coerce to numbers, numbers meet strings through ToNumber,
   and references meet primitives through ToPrimitive. -/
def looseEq (h : Heap) : JsVal → JsVal → Bool
  | .undef, .undef => true
  | .undef, .null => true
  | .null, .undef => true
  | .null, .null => true
  | .undef, _ => false
  | .null, _ => false
  | _, .undef => false
  | _, .null => false
  | .bool a, .bool b => a == b
  | .bool a, y => numLooseEq h (.int (cond a 1 0)) y
  | x, .bool b => numLooseEq h (.int (cond b 1 0)) x
  | .num n, y => numLooseEq h n y
  | x, .num n => numLooseEq h n x
  | .str a, .str b => a == b
  | .str a, .ref r => a == jsToStr h (.ref r)
  | .ref r, .str b => jsToStr h (.ref r) == b
  | .ref a, .ref b => a == b

def truthy : JsVal → Bool
  | .undef => false
  | .null => false
  | .bool b => b
  | .num (.int i) => i != 0
  | .num .nan => false
  | .str s => s != ""
  | .ref _ => true

/- pat occurs at the head of s (character lists). -/
def charsStartWith : List Char → List Char → Bool
  | [], _ => true
  | _ :: _, [] => false
  | c :: cs, d :: ds => c == d && charsStartWith cs ds

/- pat occurs somewhere in s (character lists). -/
def charsHaveSub (pat : List Char) : List Char → Bool
  | [] => charsStartWith pat []
  | d :: ds => charsStartWith pat (d :: ds) || charsHaveSub pat ds

/- Substring membership, modelling s.indexOf(pat) not equal to -1. -/
def strContains (s pat : String) : Bool :=
  charsHaveSub pat.data s.data

/- The JavaScript less-than operator: two strings compare
   lexicographically, anything else compares through ToNumber, and a NaN
   on either side yields false. -/
def jsLt (h : Heap) (a b : JsVal) : Bool :=
  match a, b with
  | .str s, .str t => decide (s < t)
  | _, _ =>
    match toNumVal h a, toNumVal h b with
    | .int x, .int y => decide (x < y)
    | _, _ => false

def jsGt (h : Heap) (a b : JsVal) : Bool :=
  jsLt h b a

/- The error a JavaScript engine throws when a non-callable value is
   invoked. -/
def nativeCallTypeError : JsErr :=
  { types := ["TypeError", "Error"], message := "this._actualValue is not a function" }

/- Invoking a value with no arguments: none means it returned normally,
   some e means the call threw e.  Invoking a non-callable throws the
   native TypeError; invoking a spy returns normally. -/
def invoke (h : Heap) (v : JsVal) : Option JsErr :=
  match v with
  | .ref r =>
    match heapGet h r with
    | some (.funcObj thrown) => thrown
    | some (.spyObj _) => none
    | _ => some nativeCallTypeError
  | _ => some nativeCallTypeError

def instanceOf (error : JsErr) (t : String) : Bool :=
  error.types.contains t

def spyCalls (h : Heap) (v : JsVal) : Option (List (List JsVal)) :=
  match v with
  | .ref r =>
    match heapGet h r with
    | some (.spyObj calls) => some calls
    | _ => none
  | _ => none

def spySetCalls (h : Heap) (v : JsVal) : Option (List (List JsVal)) :=
  match v with
  | .ref r =>
    match heapGet h r with
    | some (.propSpyObj setCalls) => some setCalls
    | _ => none
  | _ => none

/- Result of the recursive structural-equality walk, cut off at a fuel
   bound: out means the cutoff was reached (the walk needs more depth),
   typeErr that Object.keys was reached on null or undefined. -/
inductive DeepRes where
  | out
  | typeErr
  | res (b : Bool)
deriving DecidableEq, Repr

/- The key loop of Matcher._checkObjectsAreDeepEqual: for each key of
   objectA, the two property values must be strictly equal, or the
   objectA side must have typeof "object" and the recursive check (the
   next parameter) must succeed. -/
def checkKeysLoop (next : JsVal → JsVal → DeepRes) (h : Heap) (a b : JsVal) : List String → DeepRes
  | [] => .res true
  | k :: ks =>
    if strictEq (getProp h a k) (getProp h b k) then checkKeysLoop next h a b ks
    else if typeofVal h (getProp h a k) != "object" then .res false
    else
      match next (getProp h a k) (getProp h b k) with
      | .res true => checkKeysLoop next h a b ks
      | r => r

/- Matcher._checkObjectsAreDeepEqual, indexed by recursion depth (fuel):
   array-ness must match, Object.keys of both sides must agree in length,
   and every key must pass checkKeysLoop.  The source has no fuel
   parameter; the fuel here only truncates the recursion so that genuine
   non-termination on cyclic heaps is observable as out at every depth. -/
def checkObjectsAreDeepEqual (h : Heap) : Nat → JsVal → JsVal → DeepRes
  | 0, _, _ => .out
  | fuel + 1, objectA, objectB =>
    if isArrayVal h objectA != isArrayVal h objectB then .res false
    else
      match jsKeys h objectA, jsKeys h objectB with
      | .ok objectAKeys, .ok objectBKeys =>
        if objectAKeys.length != objectBKeys.length then .res false
        else checkKeysLoop (checkObjectsAreDeepEqual h fuel) h objectA objectB objectAKeys
      | _, _ => .typeErr

/- The structured failure values of the MatchError hierarchy
   (src/core/_errors.ts), one constructor per concrete error class. -/
inductive MatchFail where
  | exact (actual expected : JsVal) (shouldMatch : Bool)
  | equal (actual expected : JsVal) (shouldMatch : Bool)
  | regex (actual : JsVal) (shouldMatch : Bool)
  | truthyFail (actual : JsVal) (shouldMatch : Bool)
  | contents (actual expected : JsVal) (shouldMatch : Bool)
  | lessThan (actual limit : JsVal) (shouldMatch : Bool)
  | greaterThan (actual limit : JsVal) (shouldMatch : Bool)
  | errorMatch (err : Option JsErr) (shouldMatch : Bool) (etype : Option String) (emsg : Option String)
  | functionCall (actual : JsVal) (shouldMatch : Bool) (args : Option (List JsVal))
  | propertySet (actual : JsVal) (shouldMatch : Bool) (value : Option JsVal)
deriving DecidableEq, Repr

/- What a matcher method does: return normally, throw a specific match
   error, throw a TypeError, or fail to terminate. -/
inductive Outcome where
  | pass
  | fail (f : MatchFail)
  | typeError (msg : String)
  | diverge
deriving DecidableEq, Repr

/- A regular expression is modelled by its test function. -/
structure RegExpM where
  test : String → Bool

/- The Matcher of src/core/expect.ts: one wrapped actual value and the
   polarity flag (private fields _actualValue and _shouldMatch, the
   latter defaulting to true).  The source's .not mutates the object and
   returns this; the functional model returns the updated matcher, and
   the aliasing-observable content (actual value, toggled flag) is
   proved unchanged respectively toggled. -/
structure Matcher where
  actualValue : JsVal
  shouldMatch : Bool
deriving DecidableEq, Repr

def Expect (actualValue : JsVal) : Matcher :=
  { actualValue := actualValue, shouldMatch := true }

def Matcher.not (m : Matcher) : Matcher :=
  { m with shouldMatch := !m.shouldMatch }

def Matcher.toBe (m : Matcher) (expectedValue : JsVal) : Outcome :=
  if (!strictEq expectedValue m.actualValue) == m.shouldMatch then
    .fail (.exact m.actualValue expectedValue m.shouldMatch)
  else .pass

def Matcher.toEqual (m : Matcher) (h : Heap) (fuel : Nat) (expectedValue : JsVal) : Outcome :=
  if (!looseEq h expectedValue m.actualValue) == m.shouldMatch then
    if typeofVal h expectedValue != "object" then
      .fail (.equal m.actualValue expectedValue m.shouldMatch)
    else
      match checkObjectsAreDeepEqual h fuel expectedValue m.actualValue with
      | .out => .diverge
      | .typeErr => .typeError ("Cannot convert undefined or null to object")
      | .res d =>
        if d != m.shouldMatch then
          .fail (.equal m.actualValue expectedValue m.shouldMatch)
        else .pass
  else .pass

/- toMatch: the null/undefined regex guard comes first, then the
   non-string guard, then the regex test against polarity.  The regex
   argument is an Option, collapsing the null and undefined cases. -/
def Matcher.toMatch (m : Matcher) (regex : Option RegExpM) : Outcome :=
  match regex with
  | none => .typeError ("toMatch regular expression must not be null or undefined.")
  | some regex =>
    match m.actualValue with
    | .str s =>
      if (!regex.test s) == m.shouldMatch then
        .fail (.regex m.actualValue m.shouldMatch)
      else .pass
    | _ => .typeError ("toMatch must only be used to match on strings.")

def Matcher.toBeDefined (m : Matcher) : Outcome :=
  if strictEq m.actualValue .undef == m.shouldMatch then
    .fail (.exact m.actualValue .undef (!m.shouldMatch))
  else .pass

def Matcher.toBeNull (m : Matcher) : Outcome :=
  if (!strictEq m.actualValue .null) == m.shouldMatch then
    .fail (.exact m.actualValue .null m.shouldMatch)
  else .pass

def Matcher.toBeTruthy (m : Matcher) : Outcome :=
  if (truthy m.actualValue && !m.shouldMatch) || (!truthy m.actualValue && m.shouldMatch) then
    .fail (.truthyFail m.actualValue m.shouldMatch)
  else .pass

/- actualValue.indexOf(expectedContent) not equal to -1: substring search
   on strings (the argument coerced through ToString), strict-equality
   membership on arrays; none models the TypeError of calling indexOf on
   anything else. -/
def jsIndexOfFound (h : Heap) (a : JsVal) (content : JsVal) : Option Bool :=
  match a with
  | .str s => some (strContains s (jsToStr h content))
  | .ref r =>
    match heapGet h r with
    | some (.arrObj elems) => some (elems.any (fun x => strictEq x content))
    | _ => none
  | _ => none

def Matcher.toContain (m : Matcher) (h : Heap) (expectedContent : JsVal) : Outcome :=
  match jsIndexOfFound h m.actualValue expectedContent with
  | none => .typeError ("this._actualValue.indexOf is not a function")
  | some found =>
    if (!found) == m.shouldMatch then
      .fail (.contents m.actualValue expectedContent m.shouldMatch)
    else .pass

def Matcher.toBeLessThan (m : Matcher) (h : Heap) (upperLimit : JsVal) : Outcome :=
  if jsLt h m.actualValue upperLimit != m.shouldMatch then
    .fail (.lessThan m.actualValue upperLimit m.shouldMatch)
  else .pass

def Matcher.toBeGreaterThan (m : Matcher) (h : Heap) (lowerLimit : JsVal) : Outcome :=
  if jsGt h m.actualValue lowerLimit != m.shouldMatch then
    .fail (.greaterThan m.actualValue lowerLimit m.shouldMatch)
  else .pass

/- toThrow: the wrapped value is invoked inside a try block.  If it
   throws, a negated matcher fails from inside the catch; otherwise a
   positive matcher fails afterwards when nothing was thrown.  Note that
   invoking a non-callable throws the native TypeError inside the try
   block, where it is caught like any other error. -/
def Matcher.toThrow (m : Matcher) (h : Heap) : Outcome :=
  match invoke h m.actualValue with
  | some error =>
    if !m.shouldMatch then .fail (.errorMatch (some error) m.shouldMatch none none)
    else .pass
  | none =>
    if m.shouldMatch then .fail (.errorMatch none m.shouldMatch none none)
    else .pass

/- The threwRightError flag of toThrowError: set exactly when the call
   threw an error that is an instance of errorType with the exact
   message. -/
def threwRightErrorCheck (h : Heap) (v : JsVal) (errorType errorMessage : String) : Bool :=
  match invoke h v with
  | some error => instanceOf error errorType && (error.message == errorMessage)
  | none => false

def Matcher.toThrowError (m : Matcher) (h : Heap) (errorType errorMessage : String) : Outcome :=
  if (!threwRightErrorCheck h m.actualValue errorType errorMessage) == m.shouldMatch then
    .fail (.errorMatch (invoke h m.actualValue) m.shouldMatch (some errorType) (some errorMessage))
  else .pass

def Matcher.toHaveBeenCalled (m : Matcher) (h : Heap) : Outcome :=
  match spyCalls h m.actualValue with
  | none => .typeError ("this._actualValue.calls is undefined")
  | some calls =>
    if (calls.length == 0) == m.shouldMatch then
      .fail (.functionCall m.actualValue m.shouldMatch none)
    else .pass

/- One recorded call matches the expected argument list when every
   position agrees by strict equality (the filter over the call's
   arguments keeps as many entries as there are expected arguments) and
   the call has the same number of arguments. -/
def callMatches (args : List JsVal) (call : List JsVal) : Bool :=
  ((call.enum.filter (fun p => strictEq p.2 (args.getD p.1 .undef))).length == args.length) &&
    (call.length == args.length)

def Matcher.toHaveBeenCalledWith (m : Matcher) (h : Heap) (args : List JsVal) : Outcome :=
  match spyCalls h m.actualValue with
  | none => .typeError ("this._actualValue.calls is undefined")
  | some calls =>
    if ((calls.filter (callMatches args)).length == 0) == m.shouldMatch then
      .fail (.functionCall m.actualValue m.shouldMatch (some args))
    else .pass

def Matcher.toHaveBeenSet (m : Matcher) (h : Heap) : Outcome :=
  match spySetCalls h m.actualValue with
  | none => .typeError ("this._actualValue.setCalls is undefined")
  | some setCalls =>
    if (setCalls.length == 0) == m.shouldMatch then
      .fail (.propertySet m.actualValue m.shouldMatch none)
    else .pass

def Matcher.toHaveBeenSetTo (m : Matcher) (h : Heap) (value : JsVal) : Outcome :=
  match spySetCalls h m.actualValue with
  | none => .typeError ("this._actualValue.setCalls is undefined")
  | some setCalls =>
    if ((setCalls.filter (fun call => strictEq (call.getD 0 .undef) value)).length == 0) == m.shouldMatch then
      .fail (.propertySet m.actualValue m.shouldMatch (some value))
    else .pass

/- Modelled from the words of the spec, for comparison against the code:
   the structural-equality relation of section 4.2, stratified by
   derivation depth (the relation itself is the union over all depths,
   i.e. the least fixed point of the spec's recursive description).
   This AMENDED version recurses when the expected-side property value
   has typeof "object", which is what the code consults. -/
def DeepEqualSpecAmendedN (h : Heap) : Nat → JsVal → JsVal → Prop
  | 0, _, _ => False
  | n + 1, a, b =>
    ∃ ka kb,
      isArrayVal h a = isArrayVal h b ∧
      jsKeys h a = .ok ka ∧
      jsKeys h b = .ok kb ∧
      ka.length = kb.length ∧
      ∀ k ∈ ka,
        strictEq (getProp h a k) (getProp h b k) = true ∨
        (typeofVal h (getProp h a k) = "object" ∧
          DeepEqualSpecAmendedN h n (getProp h a k) (getProp h b k))

def DeepEqualSpecAmended (h : Heap) (a b : JsVal) : Prop :=
  ∃ n, DeepEqualSpecAmendedN h n a b

/- Non-primitive in the sense of the spec: objects and functions, i.e.
   heap references; null is a primitive. -/
def isNonPrimitive : JsVal → Bool
  | .ref _ => true
  | _ => false

/- Modelled from the words of the spec: the claim's ORIGINAL clause (c),
   which recurses only when BOTH property values are non-primitive. -/
def DeepEqualSpecOriginalN (h : Heap) : Nat → JsVal → JsVal → Prop
  | 0, _, _ => False
  | n + 1, a, b =>
    ∃ ka kb,
      isArrayVal h a = isArrayVal h b ∧
      jsKeys h a = .ok ka ∧
      jsKeys h b = .ok kb ∧
      ka.length = kb.length ∧
      ∀ k ∈ ka,
        strictEq (getProp h a k) (getProp h b k) = true ∨
        (isNonPrimitive (getProp h a k) = true ∧
          isNonPrimitive (getProp h b k) = true ∧
          DeepEqualSpecOriginalN h n (getProp h a k) (getProp h b k))

def DeepEqualSpecOriginal (h : Heap) (a b : JsVal) : Prop :=
  ∃ n, DeepEqualSpecOriginalN h n a b

/- Concrete heaps used by the claim theorems below. -/

/- Two structurally identical but distinct plain objects, each holding 1
   under the key a. -/
def heapTwinObjs : Heap :=
  [(0, .plain [("a", .num (.int 1))]), (1, .plain [("a", .num (.int 1))])]

/- The expected side holds an empty object under the key a, the actual
   side holds the number 5 there. -/
def heapEmptyVsNum : Heap :=
  [(0, .plain [("a", .ref 2)]), (1, .plain [("a", .num (.int 5))]), (2, .plain [])]

/- The nested pair of the spec: two distinct objects holding 1 under the
   key a and, under the key b, distinct nested objects holding 2 under
   the key c. -/
def heapNestedPair : Heap :=
  [(0, .plain [("a", .num (.int 1)), ("b", .ref 2)]),
   (1, .plain [("a", .num (.int 1)), ("b", .ref 3)]),
   (2, .plain [("c", .num (.int 2))]),
   (3, .plain [("c", .num (.int 2))])]

/- An object with one key against an object with two keys. -/
def heapKeyCount : Heap :=
  [(0, .plain [("a", .num (.int 1))]),
   (1, .plain [("a", .num (.int 1)), ("b", .num (.int 2))])]

/- Two distinct self-referential objects: each holds itself under the
   key a. -/
def heapCyclic : Heap :=
  [(0, .plain [("a", .ref 0)]), (1, .plain [("a", .ref 1)])]

/- A one-element array. -/
def heapSingletonArray : Heap := [(0, .arrObj [.num (.int 1)])]

/- The expected side holds null under the key a, the actual side holds a
   differing non-array value there. -/
def heapNestedNull : Heap :=
  [(0, .plain [("a", .null)]), (1, .plain [("a", .num (.int 1))])]

/- A callable that throws a RangeError with the message bad. -/
def heapRangeThrower : Heap :=
  [(0, .funcObj (some { types := ["RangeError", "Error"], message := "bad" }))]

/- Per-operation equations: each matcher method raises its specific error
   exactly when the operation's predicate disagrees with the polarity
   flag.  These are shared by the claim theorems below. -/

theorem toBe_eq (a e : JsVal) (sm : Bool) :
    Matcher.toBe ⟨a, sm⟩ e = if strictEq e a != sm then .fail (.exact a e sm) else .pass := by
  cases hs : strictEq e a <;> cases sm <;> simp [Matcher.toBe, hs]

theorem toEqual_eq_nonobject (h : Heap) (n : Nat) (a e : JsVal) (sm : Bool)
    (ht : typeofVal h e ≠ "object") :
    Matcher.toEqual ⟨a, sm⟩ h n e =
      if (!looseEq h e a) == sm then .fail (.equal a e sm) else .pass := by
  cases hl : looseEq h e a <;> cases sm <;> simp [Matcher.toEqual, hl, ht]

theorem toEqual_eq_object (h : Heap) (n : Nat) (a e : JsVal) (sm d : Bool)
    (ht : typeofVal h e = "object") (hd : checkObjectsAreDeepEqual h n e a = .res d) :
    Matcher.toEqual ⟨a, sm⟩ h n e =
      if ((!looseEq h e a) == sm) && (d != sm) then .fail (.equal a e sm) else .pass := by
  cases hl : looseEq h e a <;> cases sm <;> cases d <;>
    simp [Matcher.toEqual, hl, ht, hd]

theorem toMatch_none_eq (m : Matcher) :
    Matcher.toMatch m none =
      .typeError ("toMatch regular expression must not be null or undefined.") := rfl

theorem toMatch_nonstring_eq (m : Matcher) (r : RegExpM)
    (hs : ∀ t, m.actualValue ≠ .str t) :
    Matcher.toMatch m (some r) =
      .typeError ("toMatch must only be used to match on strings.") := by
  unfold Matcher.toMatch
  cases hv : m.actualValue
  case str s => exact absurd hv (hs s)
  all_goals rfl

theorem toMatch_str_eq (s : String) (sm : Bool) (r : RegExpM) :
    Matcher.toMatch ⟨.str s, sm⟩ (some r) =
      if r.test s != sm then .fail (.regex (.str s) sm) else .pass := by
  cases ht : r.test s <;> cases sm <;> simp [Matcher.toMatch, ht]

theorem toBeDefined_eq (a : JsVal) (sm : Bool) :
    Matcher.toBeDefined ⟨a, sm⟩ =
      if (!strictEq a .undef) != sm then .fail (.exact a .undef (!sm)) else .pass := by
  cases hs : strictEq a .undef <;> cases sm <;> simp [Matcher.toBeDefined, hs]

theorem toBeNull_eq (a : JsVal) (sm : Bool) :
    Matcher.toBeNull ⟨a, sm⟩ =
      if strictEq a .null != sm then .fail (.exact a .null sm) else .pass := by
  cases hs : strictEq a .null <;> cases sm <;> simp [Matcher.toBeNull, hs]

theorem toBeTruthy_eq (a : JsVal) (sm : Bool) :
    Matcher.toBeTruthy ⟨a, sm⟩ =
      if truthy a != sm then .fail (.truthyFail a sm) else .pass := by
  cases ht : truthy a <;> cases sm <;> simp [Matcher.toBeTruthy, ht]

theorem toContain_eq (h : Heap) (m : Matcher) (c : JsVal) (f : Bool)
    (hf : jsIndexOfFound h m.actualValue c = some f) :
    Matcher.toContain m h c =
      if f != m.shouldMatch then .fail (.contents m.actualValue c m.shouldMatch) else .pass := by
  unfold Matcher.toContain
  rw [hf]
  cases f <;> cases hm : m.shouldMatch <;> simp [hm]

theorem toBeLessThan_eq (h : Heap) (a b : JsVal) (sm : Bool) :
    Matcher.toBeLessThan ⟨a, sm⟩ h b =
      if jsLt h a b != sm then .fail (.lessThan a b sm) else .pass := rfl

theorem toBeGreaterThan_eq (h : Heap) (a b : JsVal) (sm : Bool) :
    Matcher.toBeGreaterThan ⟨a, sm⟩ h b =
      if jsLt h b a != sm then .fail (.greaterThan a b sm) else .pass := rfl

theorem jsLt_int (h : Heap) (x y : Int) :
    jsLt h (.num (.int x)) (.num (.int y)) = decide (x < y) := rfl

theorem toThrow_eq (h : Heap) (m : Matcher) :
    Matcher.toThrow m h =
      if (invoke h m.actualValue).isSome != m.shouldMatch then
        .fail (.errorMatch (invoke h m.actualValue) m.shouldMatch none none)
      else .pass := by
  unfold Matcher.toThrow
  cases hi : invoke h m.actualValue <;> cases hm : m.shouldMatch <;> simp [hi, hm]

theorem toThrowError_eq (h : Heap) (m : Matcher) (t msg : String) :
    Matcher.toThrowError m h t msg =
      if threwRightErrorCheck h m.actualValue t msg != m.shouldMatch then
        .fail (.errorMatch (invoke h m.actualValue) m.shouldMatch (some t) (some msg))
      else .pass := by
  cases hc : threwRightErrorCheck h m.actualValue t msg <;> cases hm : m.shouldMatch <;>
    simp [Matcher.toThrowError, hc, hm]

theorem toHaveBeenCalled_eq (h : Heap) (m : Matcher) (calls : List (List JsVal))
    (hc : spyCalls h m.actualValue = some calls) :
    Matcher.toHaveBeenCalled m h =
      if (calls.length != 0) != m.shouldMatch then
        .fail (.functionCall m.actualValue m.shouldMatch none)
      else .pass := by
  unfold Matcher.toHaveBeenCalled
  rw [hc]
  cases hz : calls.length == 0 <;> cases hm : m.shouldMatch <;> simp [hz, hm, bne]

theorem toHaveBeenCalledWith_eq (h : Heap) (m : Matcher) (args : List JsVal)
    (calls : List (List JsVal)) (hc : spyCalls h m.actualValue = some calls) :
    Matcher.toHaveBeenCalledWith m h args =
      if ((calls.filter (callMatches args)).length != 0) != m.shouldMatch then
        .fail (.functionCall m.actualValue m.shouldMatch (some args))
      else .pass := by
  unfold Matcher.toHaveBeenCalledWith
  rw [hc]
  cases hz : (calls.filter (callMatches args)).length == 0 <;> cases hm : m.shouldMatch <;>
    simp [hz, hm, bne]

theorem toHaveBeenSet_eq (h : Heap) (m : Matcher) (setCalls : List (List JsVal))
    (hc : spySetCalls h m.actualValue = some setCalls) :
    Matcher.toHaveBeenSet m h =
      if (setCalls.length != 0) != m.shouldMatch then
        .fail (.propertySet m.actualValue m.shouldMatch none)
      else .pass := by
  unfold Matcher.toHaveBeenSet
  rw [hc]
  cases hz : setCalls.length == 0 <;> cases hm : m.shouldMatch <;> simp [hz, hm, bne]

theorem toHaveBeenSetTo_eq (h : Heap) (m : Matcher) (v : JsVal)
    (setCalls : List (List JsVal)) (hc : spySetCalls h m.actualValue = some setCalls) :
    Matcher.toHaveBeenSetTo m h v =
      if ((setCalls.filter (fun call => strictEq (call.getD 0 .undef) v)).length != 0) != m.shouldMatch then
        .fail (.propertySet m.actualValue m.shouldMatch (some v))
      else .pass := by
  unfold Matcher.toHaveBeenSetTo
  rw [hc]
  cases hz : (setCalls.filter (fun call => strictEq (call.getD 0 .undef) v)).length == 0 <;>
    cases hm : m.shouldMatch <;> simp [hz, hm, bne]

theorem looseEq_refl (h : Heap) (v : JsVal) (hv : v ≠ .num .nan) : looseEq h v v = true := by
  cases v with
  | undef => rfl
  | null => rfl
  | bool b => simp [looseEq]
  | num n =>
    cases n with
    | int i => simp [looseEq, numLooseEq, numStrictEq]
    | nan => exact absurd rfl hv
  | str s => simp [looseEq]
  | ref r => simp [looseEq]

/- Fuel is only a cutoff: once the walk terminates at some depth, more
   fuel does not change the result. -/

theorem checkKeysLoop_congr (next next2 : JsVal → JsVal → DeepRes) (h : Heap) (a b : JsVal)
    (hnn : ∀ va vb, next va vb ≠ .out → next2 va vb = next va vb) :
    ∀ ks, checkKeysLoop next h a b ks ≠ .out →
      checkKeysLoop next2 h a b ks = checkKeysLoop next h a b ks := by
  intro ks
  induction ks with
  | nil => intro _; rfl
  | cons k ks ih =>
    intro hne
    by_cases hse : strictEq (getProp h a k) (getProp h b k) = true
    · simp only [checkKeysLoop, hse, if_true] at hne ⊢
      exact ih hne
    · replace hse : strictEq (getProp h a k) (getProp h b k) = false := by
        revert hse; cases strictEq (getProp h a k) (getProp h b k) <;> simp
      by_cases hty : (typeofVal h (getProp h a k) != "object") = true
      · simp only [checkKeysLoop, hse, Bool.false_eq_true, if_false, hty, if_true] at hne ⊢
      · replace hty : (typeofVal h (getProp h a k) != "object") = false := by
          revert hty; cases typeofVal h (getProp h a k) != "object" <;> simp
        cases hnx : next (getProp h a k) (getProp h b k) with
        | out =>
          exfalso
          apply hne
          simp only [checkKeysLoop, hse, Bool.false_eq_true, if_false, hty, hnx]
        | typeErr =>
          have h2 := hnn _ _ (by rw [hnx]; intro hcc; cases hcc)
          simp only [checkKeysLoop, hse, Bool.false_eq_true, if_false, hty, hnx, h2]
        | res bb =>
          have h2 := hnn _ _ (by rw [hnx]; intro hcc; cases hcc)
          cases bb
          · simp only [checkKeysLoop, hse, Bool.false_eq_true, if_false, hty, hnx, h2]
          · simp only [checkKeysLoop, hse, Bool.false_eq_true, if_false, hty, hnx, h2] at hne ⊢
            exact ih hne

theorem checkObjectsAreDeepEqual_succ (h : Heap) :
    ∀ n a b, checkObjectsAreDeepEqual h n a b ≠ .out →
      checkObjectsAreDeepEqual h (n + 1) a b = checkObjectsAreDeepEqual h n a b := by
  intro n
  induction n with
  | zero => intro a b hne; exact absurd rfl hne
  | succ n ih =>
    intro a b hne
    by_cases harr : (isArrayVal h a != isArrayVal h b) = true
    · simp only [checkObjectsAreDeepEqual, harr, if_true]
    · replace harr : (isArrayVal h a != isArrayVal h b) = false := by
        revert harr; cases isArrayVal h a != isArrayVal h b <;> simp
      cases hka : jsKeys h a with
      | error e =>
        simp only [checkObjectsAreDeepEqual, harr, Bool.false_eq_true, if_false, hka]
      | ok ka =>
        cases hkb : jsKeys h b with
        | error e =>
          simp only [checkObjectsAreDeepEqual, harr, Bool.false_eq_true, if_false, hka, hkb]
        | ok kb =>
          by_cases hlen : (ka.length != kb.length) = true
          · simp only [checkObjectsAreDeepEqual, harr, Bool.false_eq_true, if_false, hka, hkb,
              hlen, if_true]
          · replace hlen : (ka.length != kb.length) = false := by
              revert hlen; cases ka.length != kb.length <;> simp
            simp only [checkObjectsAreDeepEqual, harr, Bool.false_eq_true, if_false, hka, hkb,
              hlen] at hne ⊢
            exact checkKeysLoop_congr _ _ h a b (fun va vb hvv => ih va vb hvv) ka hne

theorem checkObjectsAreDeepEqual_le (h : Heap) {n m : Nat} (hnm : n ≤ m) :
    ∀ a b, checkObjectsAreDeepEqual h n a b ≠ .out →
      checkObjectsAreDeepEqual h m a b = checkObjectsAreDeepEqual h n a b := by
  induction hnm with
  | refl => intro a b _; rfl
  | @step k h2 ih =>
    intro a b hne
    have hk := ih a b hne
    have hkne : checkObjectsAreDeepEqual h k a b ≠ .out := by rw [hk]; exact hne
    rw [checkObjectsAreDeepEqual_succ h k a b hkne, hk]

/- Soundness: a terminating run of the code's walk that answers true is a
   derivation of the (amended) spec relation at the same depth. -/

theorem checkKeysLoop_sound (next : JsVal → JsVal → DeepRes) (h : Heap) (a b : JsVal)
    (Q : JsVal → JsVal → Prop) (hn : ∀ va vb, next va vb = .res true → Q va vb) :
    ∀ ks, checkKeysLoop next h a b ks = .res true →
      ∀ k ∈ ks, strictEq (getProp h a k) (getProp h b k) = true ∨
        (typeofVal h (getProp h a k) = "object" ∧ Q (getProp h a k) (getProp h b k)) := by
  intro ks
  induction ks with
  | nil => intro _ k hk; cases hk
  | cons k0 ks ih =>
    intro hres k hk
    by_cases hse : strictEq (getProp h a k0) (getProp h b k0) = true
    · simp only [checkKeysLoop, hse, if_true] at hres
      rcases List.mem_cons.mp hk with rfl | hk2
      · exact Or.inl hse
      · exact ih hres k hk2
    · replace hse : strictEq (getProp h a k0) (getProp h b k0) = false := by
        revert hse; cases strictEq (getProp h a k0) (getProp h b k0) <;> simp
      by_cases hty : (typeofVal h (getProp h a k0) != "object") = true
      · exfalso
        simp only [checkKeysLoop, hse, Bool.false_eq_true, if_false, hty, if_true] at hres
        cases hres
      · replace hty : (typeofVal h (getProp h a k0) != "object") = false := by
          revert hty; cases typeofVal h (getProp h a k0) != "object" <;> simp
        have htyeq : typeofVal h (getProp h a k0) = "object" := by
          have := hty
          simpa [bne] using this
        cases hnx : next (getProp h a k0) (getProp h b k0) with
        | out =>
          exfalso
          simp only [checkKeysLoop, hse, Bool.false_eq_true, if_false, hty, hnx] at hres
          cases hres
        | typeErr =>
          exfalso
          simp only [checkKeysLoop, hse, Bool.false_eq_true, if_false, hty, hnx] at hres
          cases hres
        | res bb =>
          cases bb
          · exfalso
            simp only [checkKeysLoop, hse, Bool.false_eq_true, if_false, hty, hnx] at hres
            cases hres
          · simp only [checkKeysLoop, hse, Bool.false_eq_true, if_false, hty, hnx] at hres
            rcases List.mem_cons.mp hk with rfl | hk2
            · exact Or.inr ⟨htyeq, hn _ _ hnx⟩
            · exact ih hres k hk2

theorem checkObjectsAreDeepEqual_sound (h : Heap) :
    ∀ n a b, checkObjectsAreDeepEqual h n a b = .res true → DeepEqualSpecAmendedN h n a b := by
  intro n
  induction n with
  | zero => intro a b hr; cases hr
  | succ n ih =>
    intro a b hr
    by_cases harr : (isArrayVal h a != isArrayVal h b) = true
    · exfalso
      simp only [checkObjectsAreDeepEqual, harr, if_true] at hr
      cases hr
    · replace harr : (isArrayVal h a != isArrayVal h b) = false := by
        revert harr; cases isArrayVal h a != isArrayVal h b <;> simp
      have harr2 : isArrayVal h a = isArrayVal h b := by
        have := harr
        simpa [bne] using this
      cases hka : jsKeys h a with
      | error e =>
        exfalso
        simp only [checkObjectsAreDeepEqual, harr, Bool.false_eq_true, if_false, hka] at hr
        cases hr
      | ok ka =>
        cases hkb : jsKeys h b with
        | error e =>
          exfalso
          simp only [checkObjectsAreDeepEqual, harr, Bool.false_eq_true, if_false, hka, hkb] at hr
          cases hr
        | ok kb =>
          by_cases hlen : (ka.length != kb.length) = true
          · exfalso
            simp only [checkObjectsAreDeepEqual, harr, Bool.false_eq_true, if_false, hka, hkb,
              hlen, if_true] at hr
            cases hr
          · replace hlen : (ka.length != kb.length) = false := by
              revert hlen; cases ka.length != kb.length <;> simp
            have hlen2 : ka.length = kb.length := by
              have := hlen
              simpa [bne] using this
            simp only [checkObjectsAreDeepEqual, harr, Bool.false_eq_true, if_false, hka, hkb,
              hlen] at hr
            simp only [DeepEqualSpecAmendedN]
            exact ⟨ka, kb, harr2, hka, hkb, hlen2,
              checkKeysLoop_sound _ h a b _ (fun va vb hv => ih va vb hv) ka hr⟩

/- Completeness: every derivation of the (amended) spec relation is
   reproduced by the code's walk at some depth. -/

theorem checkKeysLoop_complete (h : Heap) (a b : JsVal) :
    ∀ ks, (∀ k ∈ ks, strictEq (getProp h a k) (getProp h b k) = true ∨
        (typeofVal h (getProp h a k) = "object" ∧
          ∃ m, checkObjectsAreDeepEqual h m (getProp h a k) (getProp h b k) = .res true)) →
      ∃ N, checkKeysLoop (checkObjectsAreDeepEqual h N) h a b ks = .res true := by
  intro ks
  induction ks with
  | nil => intro _; exact ⟨0, rfl⟩
  | cons k0 ks ih =>
    intro hall
    obtain ⟨N, hN⟩ := ih (fun k hk => hall k (List.mem_cons_of_mem _ hk))
    rcases hall k0 (List.mem_cons_self _ _) with hse | ⟨hty, m, hm⟩
    · exact ⟨N, by simp only [checkKeysLoop, hse, if_true]; exact hN⟩
    · refine ⟨max m N, ?_⟩
      have hmM : checkObjectsAreDeepEqual h (max m N) (getProp h a k0) (getProp h b k0) = .res true := by
        rw [checkObjectsAreDeepEqual_le h (le_max_left m N) _ _
          (by rw [hm]; intro hcc; cases hcc), hm]
      have hNM : checkKeysLoop (checkObjectsAreDeepEqual h (max m N)) h a b ks = .res true := by
        rw [checkKeysLoop_congr (checkObjectsAreDeepEqual h N) (checkObjectsAreDeepEqual h (max m N))
          h a b (fun va vb hvv => checkObjectsAreDeepEqual_le h (le_max_right m N) va vb hvv)
          ks (by rw [hN]; intro hcc; cases hcc), hN]
      by_cases hse : strictEq (getProp h a k0) (getProp h b k0) = true
      · simp only [checkKeysLoop, hse, if_true]
        exact hNM
      · replace hse : strictEq (getProp h a k0) (getProp h b k0) = false := by
          revert hse; cases strictEq (getProp h a k0) (getProp h b k0) <;> simp
        have hty2 : (typeofVal h (getProp h a k0) != "object") = false := by
          simp [bne, hty]
        simp only [checkKeysLoop, hse, Bool.false_eq_true, if_false, hty2, hmM]
        exact hNM

theorem checkObjectsAreDeepEqual_complete (h : Heap) :
    ∀ n a b, DeepEqualSpecAmendedN h n a b →
      ∃ m, checkObjectsAreDeepEqual h m a b = .res true := by
  intro n
  induction n with
  | zero => intro a b hs; exact hs.elim
  | succ n ih =>
    intro a b hs
    simp only [DeepEqualSpecAmendedN] at hs
    obtain ⟨ka, kb, harr, hka, hkb, hlen, hall⟩ := hs
    obtain ⟨N, hN⟩ := checkKeysLoop_complete h a b ka
      (fun k hk => (hall k hk).imp id (fun hh => ⟨hh.1, ih _ _ hh.2⟩))
    refine ⟨N + 1, ?_⟩
    have harrb : (isArrayVal h a != isArrayVal h b) = false := by simp [bne, harr]
    have hlenb : (ka.length != kb.length) = false := by simp [bne, hlen]
    simp only [checkObjectsAreDeepEqual, harrb, Bool.false_eq_true, if_false, hka, hkb, hlenb]
    exact hN

/-- C9: the not accessor keeps the wrapped actual value, toggles the
shouldMatch polarity flag, and applying it twice restores the original
matcher, so Expect(x).not.not behaves identically to Expect(x) for every
matcher operation. -/
theorem C9_not_toggles_polarity_and_is_involutive :
    ∀ m : Matcher, (m.not).actualValue = m.actualValue ∧
      (m.not).shouldMatch = !m.shouldMatch ∧
      m.not.not = m ∧
      ∀ v : JsVal, (Expect v).not.not = Expect v := by
  intro m
  refine ⟨rfl, rfl, ?_, fun v => rfl⟩
  cases m with
  | mk a sm => simp [Matcher.not]

/-- C4 (amended): toEqual is reflexive for every value other than NaN, over
any heap and at any recursion depth: Expect(v).toEqual(v) returns without
raising, because loose equality of a value with itself short-circuits the
comparison before the deep path. -/
theorem C4_toEqual_reflexive_except_nan (h : Heap) (fuel : Nat) (v : JsVal)
    (hv : v ≠ .num .nan) :
    (Expect v).toEqual h fuel v = .pass := by
  have hl := looseEq_refl h v hv
  simp [Matcher.toEqual, Expect, hl]

/-- C4 witness: reflexivity of toEqual at the concrete value 5 over the
empty heap. -/
theorem C4_toEqual_reflexive_witness :
    (Expect (.num (.int 5))).toEqual [] 1 (.num (.int 5)) = .pass :=
  C4_toEqual_reflexive_except_nan [] 1 (.num (.int 5)) (by decide)

/-- C4 counterexample: NaN is a non-cyclic value, yet Expect(NaN).toEqual(NaN)
raises the EqualMatchError, because NaN is loosely unequal to itself and is
not object-typed. -/
theorem C4_toEqual_nan_counterexample :
    (Expect (.num .nan)).toEqual [] 1 (.num .nan) =
      .fail (.equal (.num .nan) (.num .nan) true) := by decide

/- On the cyclic twin heap the walk runs out of fuel at every depth, in
   both orientations. -/
theorem cyclic_walk_out : ∀ n,
    checkObjectsAreDeepEqual heapCyclic n (.ref 0) (.ref 1) = .out ∧
    checkObjectsAreDeepEqual heapCyclic n (.ref 1) (.ref 0) = .out := by
  intro n
  induction n with
  | zero => exact ⟨rfl, rfl⟩
  | succ n ih =>
    constructor
    · have hstep : checkObjectsAreDeepEqual heapCyclic (n + 1) (.ref 0) (.ref 1) =
          (match checkObjectsAreDeepEqual heapCyclic n (.ref 0) (.ref 1) with
            | .res true => DeepRes.res true
            | r => r) := rfl
      rw [hstep, ih.1]
    · have hstep : checkObjectsAreDeepEqual heapCyclic (n + 1) (.ref 1) (.ref 0) =
          (match checkObjectsAreDeepEqual heapCyclic n (.ref 1) (.ref 0) with
            | .res true => DeepRes.res true
            | r => r) := rfl
      rw [hstep, ih.2]

/-- C8: the structural-equality walk has no cycle guard: on a self-
referential object compared against a structurally similar distinct
self-referential object the recursion does not terminate — it exhausts
every fuel bound, and toEqual diverges at every fuel bound. -/
theorem C8_deep_equal_cyclic_nontermination :
    ∀ fuel : Nat,
      checkObjectsAreDeepEqual heapCyclic fuel (.ref 1) (.ref 0) = .out ∧
      (Expect (.ref 0)).toEqual heapCyclic fuel (.ref 1) = .diverge := by
  intro fuel
  refine ⟨(cyclic_walk_out fuel).2, ?_⟩
  have hd := (cyclic_walk_out fuel).2
  have hl : looseEq heapCyclic (.ref 1) (.ref 0) = false := by decide
  have ht : (typeofVal heapCyclic (.ref 1) != "object") = false := by decide
  simp [Matcher.toEqual, Expect, hl, ht, hd]

/-- C10 (amended): with default polarity and a null expected value, whenever
the actual value is loosely unequal to null and is not an array, the deep
path reaches Object.keys(null) and raises a TypeError instead of the
EqualMatchError; likewise (second conjunct) for a nested null expected
property whose corresponding actual property differs. -/
theorem C10_null_expected_type_error :
    (∀ (h : Heap) (n : Nat) (a : JsVal), isArrayVal h a = false →
      looseEq h .null a = false →
      (Expect a).toEqual h (n + 1) .null =
        .typeError ("Cannot convert undefined or null to object")) ∧
    (Expect (.ref 1)).toEqual heapNestedNull 3 (.ref 0) =
      .typeError ("Cannot convert undefined or null to object") := by
  constructor
  · intro h n a harr hl
    have hd : checkObjectsAreDeepEqual h (n + 1) .null a = .typeErr := by
      have harrb : (isArrayVal h .null != isArrayVal h a) = false := by
        rw [show isArrayVal h JsVal.null = false from rfl, harr]
        rfl
      simp [checkObjectsAreDeepEqual, harrb, jsKeys]
    simp [Matcher.toEqual, Expect, hl, hd, typeofVal]
  · decide

/-- C10 witness: Expect(1).toEqual(null) raises the TypeError. -/
theorem C10_null_expected_witness :
    (Expect (.num (.int 1))).toEqual [] 1 .null =
      .typeError ("Cannot convert undefined or null to object") :=
  C10_null_expected_type_error.1 [] 0 (.num (.int 1)) (by decide) (by decide)

/-- C10 counterexample: with an array actual value the Array.isArray
mismatch short-circuits before Object.keys(null) is reached, so
Expect([1]).toEqual(null) raises the EqualMatchError, not the TypeError
the claim asserts for every loosely unequal actual. -/
theorem C10_array_actual_counterexample :
    (Expect (.ref 0)).toEqual heapSingletonArray 2 .null =
      .fail (.equal (.ref 0) .null true) := by decide

/-- C3 (amended): the deep path deems two values deep-equal exactly when
(a) array-ness matches, (b) both expose the same number of own enumerable
keys, and (c) for every key the two property values are strictly equal
or, when the EXPECTED-SIDE property value is of object type, recursively
deep-equal — recursion is keyed on the expected side alone, not on both
sides being non-primitive.  In particular the two structurally identical
distinct objects of the spec are deemed equal, while the key-count
mismatch pair is deemed unequal. -/
theorem C3_deep_equal_characterisation :
    (∀ (h : Heap) (a b : JsVal),
      (∃ n, checkObjectsAreDeepEqual h n a b = .res true) ↔ DeepEqualSpecAmended h a b) ∧
    (Expect (.ref 0)).toEqual heapNestedPair 5 (.ref 1) = .pass ∧
    (Expect (.ref 0)).toEqual heapKeyCount 5 (.ref 1) =
      .fail (.equal (.ref 0) (.ref 1) true) := by
  refine ⟨fun h a b => ⟨?_, ?_⟩, by decide, by decide⟩
  · rintro ⟨n, hn⟩
    exact ⟨n, checkObjectsAreDeepEqual_sound h n a b hn⟩
  · rintro ⟨n, hn⟩
    exact checkObjectsAreDeepEqual_complete h n a b hn

/-- C3 witness: the characterisation applied forward at the twin-object
heap, where depth 2 suffices, yields the spec relation there. -/
theorem C3_deep_equal_characterisation_witness :
    DeepEqualSpecAmended heapTwinObjs (.ref 0) (.ref 1) :=
  (C3_deep_equal_characterisation.1 heapTwinObjs (.ref 0) (.ref 1)).mp ⟨2, by decide⟩

/-- C3 counterexample: the code deems the object holding an empty object
under key a deep-equal to the object holding 5 there, although clause (c)
of the claim as stated (recursion only when BOTH values are non-primitive)
rejects that pair, since 5 is primitive. -/
theorem C3_both_nonprimitive_counterexample :
    checkObjectsAreDeepEqual heapEmptyVsNum 3 (.ref 0) (.ref 1) = .res true ∧
    ¬ DeepEqualSpecOriginal heapEmptyVsNum (.ref 0) (.ref 1) := by
  constructor
  · decide
  · rintro ⟨n, hn⟩
    cases n with
    | zero => exact hn
    | succ n =>
      simp only [DeepEqualSpecOriginalN] at hn
      obtain ⟨ka, kb, harr, hka, hkb, hlen, hall⟩ := hn
      have h0 : jsKeys heapEmptyVsNum (.ref 0) = Except.ok ["a"] := rfl
      rw [h0] at hka
      injection hka with hka2
      subst hka2
      rcases hall "a" (List.mem_singleton.mpr rfl) with hs | ⟨hA, hB, _⟩
      · exact absurd hs (by decide)
      · exact absurd hB (by decide)

/-- C5: with default polarity toThrowError(T, msg) applied to a callable
returns without raising exactly when invoking the callable throws an
error that is an instance of T and has message exactly msg; when it does
raise, the raise is the ErrorMatchError carrying the caught error. -/
theorem C5_toThrowError_pass_iff (h : Heap) (m : Matcher) (t msg : String)
    (hsm : m.shouldMatch = true) (hc : typeofVal h m.actualValue = "function") :
    (Matcher.toThrowError m h t msg = .pass ↔
      ∃ e, invoke h m.actualValue = some e ∧ instanceOf e t = true ∧ e.message = msg) ∧
    (Matcher.toThrowError m h t msg = .pass ∨
      Matcher.toThrowError m h t msg =
        .fail (.errorMatch (invoke h m.actualValue) m.shouldMatch (some t) (some msg))) := by
  have he := toThrowError_eq h m t msg
  constructor
  · rw [he, hsm]
    cases hi : invoke h m.actualValue with
    | none =>
      have hcheck : threwRightErrorCheck h m.actualValue t msg = false := by
        unfold threwRightErrorCheck
        rw [hi]
      rw [hcheck]
      simp only [show ((false != true) = true) from rfl, if_true]
      constructor
      · intro hx
        cases hx
      · rintro ⟨e, hie, _, _⟩
        cases hie
    | some e =>
      have hcheck : threwRightErrorCheck h m.actualValue t msg =
          (instanceOf e t && (e.message == msg)) := by
        unfold threwRightErrorCheck
        rw [hi]
      rw [hcheck]
      cases hinst : instanceOf e t && (e.message == msg)
      · simp only [show ((false != true) = true) from rfl, if_true]
        constructor
        · intro hx
          cases hx
        · rintro ⟨e2, hie, hin2, hmsg2⟩
          injection hie with hie2
          subst hie2
          rw [hin2, hmsg2] at hinst
          simp at hinst
      · simp only [show ((true != true) = false) from rfl, if_false]
        rw [Bool.and_eq_true] at hinst
        exact ⟨by intro _; exact ⟨e, rfl, hinst.1, eq_of_beq hinst.2⟩, fun _ => rfl⟩
  · rw [he]
    cases threwRightErrorCheck h m.actualValue t msg != m.shouldMatch
    · exact Or.inl (by simp)
    · exact Or.inr (by simp)

/-- C5 witness: Expect of a callable throwing a RangeError with message
bad, matched with toThrowError(RangeError, bad), passes. -/
theorem C5_toThrowError_witness :
    Matcher.toThrowError (Expect (.ref 0)) heapRangeThrower "RangeError" "bad" = .pass := by
  have hth := C5_toThrowError_pass_iff heapRangeThrower (Expect (.ref 0)) "RangeError" "bad"
    rfl (by decide)
  exact hth.1.mpr ⟨{ types := ["RangeError", "Error"], message := "bad" }, by decide, by decide, rfl⟩

/-- C6: evaluation at the failing input: toMatch on a non-string actual is
an immediate TypeError as the claim states, but toThrow on the
non-callable 5 is not — the native TypeError thrown by invoking 5 is
caught inside the try block and absorbed into the match outcome: positive
polarity passes, and negated polarity raises the ErrorMatchError carrying
the caught TypeError rather than surfacing a usage error. -/
theorem C6_toThrow_misuse_absorbed :
    Matcher.toMatch (Expect (.num (.int 5))) (some { test := fun _ => true }) =
      .typeError ("toMatch must only be used to match on strings.") ∧
    Matcher.toThrow (Expect (.num (.int 5))) [] = .pass ∧
    Matcher.toThrow ((Expect (.num (.int 5))).not) [] =
      .fail (.errorMatch (some nativeCallTypeError) false none none) :=
  ⟨rfl, rfl, rfl⟩

/-- C7: toMatch raises a TypeError whenever the regular expression is
absent (null or undefined) or the actual value is not a string; otherwise
it raises the RegexMatchError exactly when the regex test of the actual
string differs from the current polarity. -/
theorem C7_toMatch_behaviour (m : Matcher) (r : RegExpM) (s : String) :
    (Matcher.toMatch m none =
      .typeError ("toMatch regular expression must not be null or undefined.")) ∧
    ((∀ t, m.actualValue ≠ .str t) →
      Matcher.toMatch m (some r) =
        .typeError ("toMatch must only be used to match on strings.")) ∧
    (∀ sm : Bool,
      Matcher.toMatch ⟨.str s, sm⟩ (some r) =
        if r.test s != sm then .fail (.regex (.str s) sm) else .pass) :=
  ⟨toMatch_none_eq m, fun hs => toMatch_nonstring_eq m r hs, fun sm => toMatch_str_eq s sm r⟩

/-- C7 witness: toMatch on the non-string 5 is a TypeError, and toMatch on
a matching string passes. -/
theorem C7_toMatch_witness :
    Matcher.toMatch (Expect (.num (.int 5))) (some { test := fun t => t == "x" }) =
      .typeError ("toMatch must only be used to match on strings.") ∧
    Matcher.toMatch (Expect (.str "x")) (some { test := fun t => t == "x" }) = .pass := by
  constructor
  · exact (C7_toMatch_behaviour (Expect (.num (.int 5)))
      { test := fun t => t == "x" } "x").2.1 (by intro t ht; cases ht)
  · have h3 := (C7_toMatch_behaviour (Expect (.str "x"))
      { test := fun t => t == "x" } "x").2.2 true
    show Matcher.toMatch (⟨.str "x", true⟩ : Matcher) (some { test := fun t => t == "x" }) = .pass
    rw [h3]
    rfl

/-- C1 (amended): every comparison method raises that operation's specific
match error exactly when the operation's predicate P(actual, expected)
differs from the current shouldMatch polarity and returns normally
otherwise, for type-appropriate arguments — with one exception: toEqual
obeys the rule as stated only when the expected value is not object-typed
(there P is loose equality); when the expected value is object-typed and
the deep comparison terminates with boolean d, toEqual raises exactly when
loose inequality equals shouldMatch AND d differs from shouldMatch, so
with shouldMatch false a distinct but deep-equal pair raises nothing. -/
theorem C1_raise_iff_predicate_differs_from_polarity :
    (∀ (a e : JsVal) (sm : Bool),
      Matcher.toBe ⟨a, sm⟩ e =
        if strictEq e a != sm then .fail (.exact a e sm) else .pass) ∧
    (∀ (h : Heap) (n : Nat) (a e : JsVal) (sm : Bool), typeofVal h e ≠ "object" →
      Matcher.toEqual ⟨a, sm⟩ h n e =
        if looseEq h e a != sm then .fail (.equal a e sm) else .pass) ∧
    (∀ (h : Heap) (n : Nat) (a e : JsVal) (sm d : Bool), typeofVal h e = "object" →
      checkObjectsAreDeepEqual h n e a = .res d →
      Matcher.toEqual ⟨a, sm⟩ h n e =
        if (looseEq h e a != sm) && (d != sm) then .fail (.equal a e sm) else .pass) ∧
    (∀ (s : String) (sm : Bool) (r : RegExpM),
      Matcher.toMatch ⟨.str s, sm⟩ (some r) =
        if r.test s != sm then .fail (.regex (.str s) sm) else .pass) ∧
    (∀ (a : JsVal) (sm : Bool),
      Matcher.toBeDefined ⟨a, sm⟩ =
        if (!strictEq a .undef) != sm then .fail (.exact a .undef (!sm)) else .pass) ∧
    (∀ (a : JsVal) (sm : Bool),
      Matcher.toBeNull ⟨a, sm⟩ =
        if strictEq a .null != sm then .fail (.exact a .null sm) else .pass) ∧
    (∀ (a : JsVal) (sm : Bool),
      Matcher.toBeTruthy ⟨a, sm⟩ =
        if truthy a != sm then .fail (.truthyFail a sm) else .pass) ∧
    (∀ (h : Heap) (m : Matcher) (c : JsVal) (f : Bool),
      jsIndexOfFound h m.actualValue c = some f →
      Matcher.toContain m h c =
        if f != m.shouldMatch then .fail (.contents m.actualValue c m.shouldMatch) else .pass) ∧
    (∀ (h : Heap) (x y : Int) (sm : Bool),
      Matcher.toBeLessThan ⟨.num (.int x), sm⟩ h (.num (.int y)) =
        if decide (x < y) != sm then
          .fail (.lessThan (.num (.int x)) (.num (.int y)) sm)
        else .pass) ∧
    (∀ (h : Heap) (x y : Int) (sm : Bool),
      Matcher.toBeGreaterThan ⟨.num (.int x), sm⟩ h (.num (.int y)) =
        if decide (y < x) != sm then
          .fail (.greaterThan (.num (.int x)) (.num (.int y)) sm)
        else .pass) ∧
    (∀ (h : Heap) (m : Matcher), typeofVal h m.actualValue = "function" →
      Matcher.toThrow m h =
        if (invoke h m.actualValue).isSome != m.shouldMatch then
          .fail (.errorMatch (invoke h m.actualValue) m.shouldMatch none none)
        else .pass) ∧
    (∀ (h : Heap) (m : Matcher) (t msg : String), typeofVal h m.actualValue = "function" →
      Matcher.toThrowError m h t msg =
        if threwRightErrorCheck h m.actualValue t msg != m.shouldMatch then
          .fail (.errorMatch (invoke h m.actualValue) m.shouldMatch (some t) (some msg))
        else .pass) ∧
    (∀ (h : Heap) (m : Matcher) (calls : List (List JsVal)),
      spyCalls h m.actualValue = some calls →
      Matcher.toHaveBeenCalled m h =
        if (calls.length != 0) != m.shouldMatch then
          .fail (.functionCall m.actualValue m.shouldMatch none)
        else .pass) ∧
    (∀ (h : Heap) (m : Matcher) (args : List JsVal) (calls : List (List JsVal)),
      spyCalls h m.actualValue = some calls →
      Matcher.toHaveBeenCalledWith m h args =
        if ((calls.filter (callMatches args)).length != 0) != m.shouldMatch then
          .fail (.functionCall m.actualValue m.shouldMatch (some args))
        else .pass) ∧
    (∀ (h : Heap) (m : Matcher) (setCalls : List (List JsVal)),
      spySetCalls h m.actualValue = some setCalls →
      Matcher.toHaveBeenSet m h =
        if (setCalls.length != 0) != m.shouldMatch then
          .fail (.propertySet m.actualValue m.shouldMatch none)
        else .pass) ∧
    (∀ (h : Heap) (m : Matcher) (v : JsVal) (setCalls : List (List JsVal)),
      spySetCalls h m.actualValue = some setCalls →
      Matcher.toHaveBeenSetTo m h v =
        if ((setCalls.filter (fun call => strictEq (call.getD 0 .undef) v)).length != 0) != m.shouldMatch then
          .fail (.propertySet m.actualValue m.shouldMatch (some v))
        else .pass) := by
  refine ⟨toBe_eq, ?_, ?_, fun s sm r => toMatch_str_eq s sm r, toBeDefined_eq, toBeNull_eq,
    toBeTruthy_eq, toContain_eq, ?_, ?_, fun h m _ => toThrow_eq h m,
    fun h m t msg _ => toThrowError_eq h m t msg, toHaveBeenCalled_eq, toHaveBeenCalledWith_eq,
    toHaveBeenSet_eq, toHaveBeenSetTo_eq⟩
  · intro h n a e sm ht
    rw [toEqual_eq_nonobject h n a e sm ht]
    cases looseEq h e a <;> cases sm <;> rfl
  · intro h n a e sm d ht hd
    rw [toEqual_eq_object h n a e sm d ht hd]
    cases looseEq h e a <;> cases sm <;> cases d <;> rfl
  · intro h x y sm
    rfl
  · intro h x y sm
    rfl

/-- C1 witness: the rule applied at concrete inputs: toBe on two equal
numbers passes, and toThrow with positive polarity on a throwing callable
passes (the callability hypothesis discharged by computation). -/
theorem C1_raise_iff_predicate_witness :
    Matcher.toBe ⟨.num (.int 1), true⟩ (.num (.int 1)) = .pass ∧
    Matcher.toThrow ⟨.ref 0, true⟩ heapRangeThrower = .pass := by
  obtain ⟨h1, h2, h3, h4, h5, h6, h7, h8, h9, h10, h11, h12, h13, h14, h15, h16⟩ :=
    C1_raise_iff_predicate_differs_from_polarity
  constructor
  · rw [h1]
    decide
  · rw [h11 heapRangeThrower ⟨.ref 0, true⟩ (by decide)]
    decide

/-- C1 counterexample: toEqual with negated polarity on two distinct but
structurally identical objects: the spec predicate (deep structural
equality) holds and differs from the shouldMatch polarity false, yet no
error is raised. -/
theorem C1_negated_toEqual_counterexample :
    ((Expect (.ref 0)).not).toEqual heapTwinObjs 4 (.ref 1) = .pass ∧
    checkObjectsAreDeepEqual heapTwinObjs 4 (.ref 1) (.ref 0) = .res true ∧
    looseEq heapTwinObjs (.ref 1) (.ref 0) = false :=
  ⟨by decide, by decide, by decide⟩

/-- C2 (amended): for every matcher operation on type-appropriate inputs,
Expect(x).op returns without raising exactly when Expect(x).not.op raises
— except toEqual with an object-typed expected value when loose equality
disagrees with the terminating deep result (distinct but deep-equal
objects, or loosely equal values whose structural walk answers false,
such as an object with a NaN field compared against itself): there both
polarities pass, so negation is not a complement of toEqual. -/
theorem C2_negation_complement :
    (∀ (x e : JsVal),
      (Expect x).toBe e = .pass ↔ ¬(((Expect x).not).toBe e = .pass)) ∧
    (∀ (h : Heap) (n : Nat) (x e : JsVal), typeofVal h e ≠ "object" →
      ((Expect x).toEqual h n e = .pass ↔ ¬(((Expect x).not).toEqual h n e = .pass))) ∧
    (∀ (h : Heap) (n : Nat) (x e : JsVal) (d : Bool), typeofVal h e = "object" →
      checkObjectsAreDeepEqual h n e x = .res d → looseEq h e x = d →
      ((Expect x).toEqual h n e = .pass ↔ ¬(((Expect x).not).toEqual h n e = .pass))) ∧
    (∀ (s : String) (r : RegExpM),
      (Expect (.str s)).toMatch (some r) = .pass ↔
        ¬(((Expect (.str s)).not).toMatch (some r) = .pass)) ∧
    (∀ x : JsVal,
      (Expect x).toBeDefined = .pass ↔ ¬(((Expect x).not).toBeDefined = .pass)) ∧
    (∀ x : JsVal,
      (Expect x).toBeNull = .pass ↔ ¬(((Expect x).not).toBeNull = .pass)) ∧
    (∀ x : JsVal,
      (Expect x).toBeTruthy = .pass ↔ ¬(((Expect x).not).toBeTruthy = .pass)) ∧
    (∀ (h : Heap) (x c : JsVal) (f : Bool), jsIndexOfFound h x c = some f →
      ((Expect x).toContain h c = .pass ↔ ¬(((Expect x).not).toContain h c = .pass))) ∧
    (∀ (h : Heap) (x e : JsVal),
      (Expect x).toBeLessThan h e = .pass ↔ ¬(((Expect x).not).toBeLessThan h e = .pass)) ∧
    (∀ (h : Heap) (x e : JsVal),
      (Expect x).toBeGreaterThan h e = .pass ↔
        ¬(((Expect x).not).toBeGreaterThan h e = .pass)) ∧
    (∀ (h : Heap) (x : JsVal),
      (Expect x).toThrow h = .pass ↔ ¬(((Expect x).not).toThrow h = .pass)) ∧
    (∀ (h : Heap) (x : JsVal) (t msg : String),
      (Expect x).toThrowError h t msg = .pass ↔
        ¬(((Expect x).not).toThrowError h t msg = .pass)) ∧
    (∀ (h : Heap) (x : JsVal) (calls : List (List JsVal)), spyCalls h x = some calls →
      ((Expect x).toHaveBeenCalled h = .pass ↔
        ¬(((Expect x).not).toHaveBeenCalled h = .pass))) ∧
    (∀ (h : Heap) (x : JsVal) (args : List JsVal) (calls : List (List JsVal)),
      spyCalls h x = some calls →
      ((Expect x).toHaveBeenCalledWith h args = .pass ↔
        ¬(((Expect x).not).toHaveBeenCalledWith h args = .pass))) ∧
    (∀ (h : Heap) (x : JsVal) (setCalls : List (List JsVal)), spySetCalls h x = some setCalls →
      ((Expect x).toHaveBeenSet h = .pass ↔
        ¬(((Expect x).not).toHaveBeenSet h = .pass))) ∧
    (∀ (h : Heap) (x v : JsVal) (setCalls : List (List JsVal)), spySetCalls h x = some setCalls →
      ((Expect x).toHaveBeenSetTo h v = .pass ↔
        ¬(((Expect x).not).toHaveBeenSetTo h v = .pass))) := by
  refine ⟨?_, ?_, ?_, ?_, ?_, ?_, ?_, ?_, ?_, ?_, ?_, ?_, ?_, ?_, ?_, ?_⟩
  · intro x e
    show Matcher.toBe ⟨x, true⟩ e = .pass ↔ ¬(Matcher.toBe ⟨x, false⟩ e = .pass)
    rw [toBe_eq x e true, toBe_eq x e false]
    cases strictEq e x <;> simp
  · intro h n x e ht
    show Matcher.toEqual ⟨x, true⟩ h n e = .pass ↔ ¬(Matcher.toEqual ⟨x, false⟩ h n e = .pass)
    rw [toEqual_eq_nonobject h n x e true ht, toEqual_eq_nonobject h n x e false ht]
    cases looseEq h e x <;> simp
  · intro h n x e d ht hd hl
    show Matcher.toEqual ⟨x, true⟩ h n e = .pass ↔ ¬(Matcher.toEqual ⟨x, false⟩ h n e = .pass)
    rw [toEqual_eq_object h n x e true d ht hd, toEqual_eq_object h n x e false d ht hd, hl]
    cases d <;> simp
  · intro s r
    show Matcher.toMatch ⟨.str s, true⟩ (some r) = .pass ↔
      ¬(Matcher.toMatch ⟨.str s, false⟩ (some r) = .pass)
    rw [toMatch_str_eq s true r, toMatch_str_eq s false r]
    cases r.test s <;> simp
  · intro x
    show Matcher.toBeDefined ⟨x, true⟩ = .pass ↔ ¬(Matcher.toBeDefined ⟨x, false⟩ = .pass)
    rw [toBeDefined_eq x true, toBeDefined_eq x false]
    cases strictEq x .undef <;> simp
  · intro x
    show Matcher.toBeNull ⟨x, true⟩ = .pass ↔ ¬(Matcher.toBeNull ⟨x, false⟩ = .pass)
    rw [toBeNull_eq x true, toBeNull_eq x false]
    cases strictEq x .null <;> simp
  · intro x
    show Matcher.toBeTruthy ⟨x, true⟩ = .pass ↔ ¬(Matcher.toBeTruthy ⟨x, false⟩ = .pass)
    rw [toBeTruthy_eq x true, toBeTruthy_eq x false]
    cases truthy x <;> simp
  · intro h x c f hf
    have h1 : Matcher.toContain ⟨x, true⟩ h c =
        if f != true then .fail (.contents x c true) else .pass :=
      toContain_eq h ⟨x, true⟩ c f hf
    have h2 : Matcher.toContain ⟨x, false⟩ h c =
        if f != false then .fail (.contents x c false) else .pass :=
      toContain_eq h ⟨x, false⟩ c f hf
    show Matcher.toContain ⟨x, true⟩ h c = .pass ↔ ¬(Matcher.toContain ⟨x, false⟩ h c = .pass)
    rw [h1, h2]
    cases f <;> simp
  · intro h x e
    show Matcher.toBeLessThan ⟨x, true⟩ h e = .pass ↔
      ¬(Matcher.toBeLessThan ⟨x, false⟩ h e = .pass)
    rw [toBeLessThan_eq h x e true, toBeLessThan_eq h x e false]
    cases jsLt h x e <;> simp
  · intro h x e
    show Matcher.toBeGreaterThan ⟨x, true⟩ h e = .pass ↔
      ¬(Matcher.toBeGreaterThan ⟨x, false⟩ h e = .pass)
    rw [toBeGreaterThan_eq h x e true, toBeGreaterThan_eq h x e false]
    cases jsLt h e x <;> simp
  · intro h x
    have h1 : Matcher.toThrow ⟨x, true⟩ h =
        if (invoke h x).isSome != true then
          .fail (.errorMatch (invoke h x) true none none) else .pass :=
      toThrow_eq h ⟨x, true⟩
    have h2 : Matcher.toThrow ⟨x, false⟩ h =
        if (invoke h x).isSome != false then
          .fail (.errorMatch (invoke h x) false none none) else .pass :=
      toThrow_eq h ⟨x, false⟩
    show Matcher.toThrow ⟨x, true⟩ h = .pass ↔ ¬(Matcher.toThrow ⟨x, false⟩ h = .pass)
    rw [h1, h2]
    cases (invoke h x).isSome <;> simp
  · intro h x t msg
    have h1 : Matcher.toThrowError ⟨x, true⟩ h t msg =
        if threwRightErrorCheck h x t msg != true then
          .fail (.errorMatch (invoke h x) true (some t) (some msg)) else .pass :=
      toThrowError_eq h ⟨x, true⟩ t msg
    have h2 : Matcher.toThrowError ⟨x, false⟩ h t msg =
        if threwRightErrorCheck h x t msg != false then
          .fail (.errorMatch (invoke h x) false (some t) (some msg)) else .pass :=
      toThrowError_eq h ⟨x, false⟩ t msg
    show Matcher.toThrowError ⟨x, true⟩ h t msg = .pass ↔
      ¬(Matcher.toThrowError ⟨x, false⟩ h t msg = .pass)
    rw [h1, h2]
    cases threwRightErrorCheck h x t msg <;> simp
  · intro h x calls hc
    have h1 : Matcher.toHaveBeenCalled ⟨x, true⟩ h =
        if (calls.length != 0) != true then .fail (.functionCall x true none) else .pass :=
      toHaveBeenCalled_eq h ⟨x, true⟩ calls hc
    have h2 : Matcher.toHaveBeenCalled ⟨x, false⟩ h =
        if (calls.length != 0) != false then .fail (.functionCall x false none) else .pass :=
      toHaveBeenCalled_eq h ⟨x, false⟩ calls hc
    show Matcher.toHaveBeenCalled ⟨x, true⟩ h = .pass ↔
      ¬(Matcher.toHaveBeenCalled ⟨x, false⟩ h = .pass)
    rw [h1, h2]
    cases calls.length != 0 <;> simp
  · intro h x args calls hc
    have h1 : Matcher.toHaveBeenCalledWith ⟨x, true⟩ h args =
        if ((calls.filter (callMatches args)).length != 0) != true then
          .fail (.functionCall x true (some args)) else .pass :=
      toHaveBeenCalledWith_eq h ⟨x, true⟩ args calls hc
    have h2 : Matcher.toHaveBeenCalledWith ⟨x, false⟩ h args =
        if ((calls.filter (callMatches args)).length != 0) != false then
          .fail (.functionCall x false (some args)) else .pass :=
      toHaveBeenCalledWith_eq h ⟨x, false⟩ args calls hc
    show Matcher.toHaveBeenCalledWith ⟨x, true⟩ h args = .pass ↔
      ¬(Matcher.toHaveBeenCalledWith ⟨x, false⟩ h args = .pass)
    rw [h1, h2]
    cases (calls.filter (callMatches args)).length != 0 <;> simp
  · intro h x setCalls hc
    have h1 : Matcher.toHaveBeenSet ⟨x, true⟩ h =
        if (setCalls.length != 0) != true then .fail (.propertySet x true none) else .pass :=
      toHaveBeenSet_eq h ⟨x, true⟩ setCalls hc
    have h2 : Matcher.toHaveBeenSet ⟨x, false⟩ h =
        if (setCalls.length != 0) != false then .fail (.propertySet x false none) else .pass :=
      toHaveBeenSet_eq h ⟨x, false⟩ setCalls hc
    show Matcher.toHaveBeenSet ⟨x, true⟩ h = .pass ↔
      ¬(Matcher.toHaveBeenSet ⟨x, false⟩ h = .pass)
    rw [h1, h2]
    cases setCalls.length != 0 <;> simp
  · intro h x v setCalls hc
    have h1 : Matcher.toHaveBeenSetTo ⟨x, true⟩ h v =
        if ((setCalls.filter (fun call => strictEq (call.getD 0 .undef) v)).length != 0) != true then
          .fail (.propertySet x true (some v)) else .pass :=
      toHaveBeenSetTo_eq h ⟨x, true⟩ v setCalls hc
    have h2 : Matcher.toHaveBeenSetTo ⟨x, false⟩ h v =
        if ((setCalls.filter (fun call => strictEq (call.getD 0 .undef) v)).length != 0) != false then
          .fail (.propertySet x false (some v)) else .pass :=
      toHaveBeenSetTo_eq h ⟨x, false⟩ v setCalls hc
    show Matcher.toHaveBeenSetTo ⟨x, true⟩ h v = .pass ↔
      ¬(Matcher.toHaveBeenSetTo ⟨x, false⟩ h v = .pass)
    rw [h1, h2]
    cases (setCalls.filter (fun call => strictEq (call.getD 0 .undef) v)).length != 0 <;> simp

/-- C2 witness: the complement applied at a concrete input: since
Expect of the string hello contains ell (computed), its negation raises. -/
theorem C2_negation_complement_witness :
    ¬(((Expect (.str "hello")).not).toContain [] (.str "ell") = .pass) :=
  (C2_negation_complement.2.2.2.2.2.2.2.1 [] (.str "hello") (.str "ell") true
    (by decide)).mp (by decide)

/-- C2 counterexample: two distinct but structurally identical objects:
Expect(x).toEqual(y) passes AND Expect(x).not.toEqual(y) passes, so
negation is not a logical complement of toEqual on this non-degenerate
input. -/
theorem C2_negation_not_complement_counterexample :
    (Expect (.ref 0)).toEqual heapTwinObjs 4 (.ref 1) = .pass ∧
    ((Expect (.ref 0)).not).toEqual heapTwinObjs 4 (.ref 1) = .pass :=
  ⟨by decide, by decide⟩
